import Mathlib

/-!
Verification of the mcp-a2a-bridge agent registry and capability bridge.

The definitions below are a shallow embedding of `src/registry.ts` (slug
normalizer and `A2ARegistry`) and `src/index.ts` (JSON-RPC bridging of
`tasks/send`, mock mode, and the MCP tool handlers).  File-system and
network effects are made explicit: durable storage is an association list
from file base name to parsed file content, and every nondeterministic
input of the code (fetched agent card, generated UUID, current timestamp,
I/O success) is a parameter of the corresponding operation.
-/

/-! ## Definitions -/

/-- Characters matched by the JavaScript regex class `\s` (whitespace used by
`String.prototype.trim` as well). -/
def isJsSpace (c : Char) : Bool :=
  c == '\x09' || c == '\x0a' || c == '\x0b' || c == '\x0c' || c == '\x0d' ||
  c == ' ' || c == '\u00a0' || c == '\u1680' ||
  ('\u2000' ≤ c && c ≤ '\u200a') ||
  c == '\u2028' || c == '\u2029' || c == '\u202f' || c == '\u205f' ||
  c == '\u3000' || c == '\ufeff'

/-- Characters matched by the JavaScript regex class `\w`: ASCII letters,
digits and underscore. -/
def isWordChar (c : Char) : Bool :=
  ('a' ≤ c && c ≤ 'z') || ('A' ≤ c && c ≤ 'Z') || ('0' ≤ c && c ≤ '9') || c == '_'

/-- JavaScript `String.prototype.trim`: drop whitespace from both ends. -/
def jsTrimList (l : List Char) : List Char :=
  ((l.dropWhile isJsSpace).reverse.dropWhile isJsSpace).reverse

/-- JavaScript `String.prototype.trim` on strings. -/
def jsTrim (s : String) : String :=
  String.mk (jsTrimList s.data)

/-- The regex replacement of `\s+` (globally) by a hyphen: each maximal run
of whitespace becomes a single hyphen. -/
def squashWs : List Char → List Char
  | [] => []
  | [c] => if isJsSpace c then ['-'] else [c]
  | c :: d :: rest =>
    if isJsSpace c then
      if isJsSpace d then squashWs (d :: rest)
      else '-' :: squashWs (d :: rest)
    else c :: squashWs (d :: rest)

/-- The regex replacement of `--+` (two or more hyphens, globally) by a single
hyphen: each maximal run of hyphens becomes a single hyphen (runs of length
one are left alone, which has the same effect). -/
def squashHyphens : List Char → List Char
  | [] => []
  | [c] => [c]
  | c :: d :: rest =>
    if c == '-' then
      if d == '-' then squashHyphens (d :: rest)
      else '-' :: squashHyphens (d :: rest)
    else c :: squashHyphens (d :: rest)

/-- Strip trailing hyphens: the regex replacement of `-+` anchored at the end
of the string by the empty string. -/
def rstripHyphens (l : List Char) : List Char :=
  (l.reverse.dropWhile (· == '-')).reverse

/-- The slug pipeline of `slugify` before length truncation: lower-case,
trim, whitespace runs to hyphen, strip characters outside `[\w-]`, collapse
hyphen runs, strip leading and trailing hyphens. -/
def slugCore (l : List Char) : List Char :=
  rstripHyphens
    ((squashHyphens
      ((squashWs (jsTrimList (l.map Char.toLower))).filter
        (fun c => isWordChar c || c == '-'))).dropWhile (· == '-'))

/-- `slugify(text, maxLength?)` from registry.ts.  Note that the source
guards truncation with `if (maxLength && slug.length > maxLength)`, so a
`maxLength` of `0` (falsy in JavaScript) performs no truncation. -/
def slugify (text : String) (maxLength : Option Nat) : String :=
  if text = "" then ""
  else
    let slug := slugCore text.data
    let slug :=
      match maxLength with
      | some m => if m ≠ 0 ∧ slug.length > m then rstripHyphens (slug.take m) else slug
      | none => slug
    String.mk slug

/-- One entry of `AgentCard.skills` (actual type `AgentSkill`): an `id` plus
optional display `name` and `description`. -/
structure Skill where
  id : String
  name : Option String
  description : Option String
deriving DecidableEq

/-- Shape of an A2A agent card (registry.ts `AgentCard`).  The required field
`capabilities` has type `unknown` in the source and is only ever inspected
for JavaScript truthiness, so it is modelled by that truthiness; additional
opaque fields beyond the declared ones are not modelled. -/
structure AgentCard where
  id : Option String
  name : String
  url : String
  version : String
  description : Option String
  capabilities : Bool
  skills : List Skill
deriving DecidableEq

/-- registry.ts `RegisteredServer`. -/
structure RegisteredServer where
  id : String
  registrationUrl : String
  card : AgentCard
  addedAt : String
deriving DecidableEq

def MAX_SERVER_ID_SLUG_LENGTH : Nat := 20

/-- First-match lookup, like `Map.get`. -/
def alookup {α : Type} : List (String × α) → String → Option α
  | [], _ => none
  | (k, v) :: rest, key => if k = key then some v else alookup rest key

/-- `Map.set`: replace the first entry with the key in place, else append. -/
def aset {α : Type} : List (String × α) → String → α → List (String × α)
  | [], key, v => [(key, v)]
  | (k, w) :: rest, key, v =>
    if k = key then (key, v) :: rest else (k, w) :: aset rest key v

/-- `Map.delete` / `fs.unlink`: drop every entry with the key. -/
def aerase {α : Type} (l : List (String × α)) (key : String) : List (String × α) :=
  l.filter (fun p => p.1 ≠ key)

def NodupKeys {α : Type} (l : List (String × α)) : Prop :=
  (l.map Prod.fst).Nodup

/-- Registry state: the in-memory cache plus the durable directory.  A disk
entry `(f, c)` stands for the file `<dir>/<f>.json`; `c = none` means the
file is unreadable or unparseable (the `catch` branch of `_readServerFile`),
`c = some s` means it parses to the record `s`.  Files without a `.json`
extension are ignored by every registry operation and are not modelled. -/
structure RegState where
  cache : List (String × RegisteredServer)
  disk : List (String × Option RegisteredServer)
deriving DecidableEq

/-- `_readServerFile` on the file for `key`: `none` covers both a missing
file (ENOENT) and an unreadable or unparseable one. -/
def readServerFile (disk : List (String × Option RegisteredServer)) (key : String) :
    Option RegisteredServer :=
  match alookup disk key with
  | some (some s) => some s
  | _ => none

/-- The card endpoint `new URL('.well-known/agent.json', base)` where `base`
is `registrationUrl` with a trailing slash ensured.  URL resolution is
modelled as string concatenation, which agrees with the source for ordinary
absolute URLs. -/
def cardEndpoint (registrationUrl : String) : String :=
  (if registrationUrl.endsWith "/" then registrationUrl else registrationUrl ++ "/")
    ++ ".well-known/agent.json"

/-- The required-field validation loop of `register`: returns the thrown
error message, or `none` if the card passes.  For the string fields the
JavaScript test `!card[field] || (typeof card[field] === 'string' &&
!card[field].trim())` fails exactly when the field trims to the empty
string; `capabilities` (non-string) fails exactly when falsy; `skills` is an
array in the model, hence always truthy, and `Array.isArray` always holds. -/
def validateCard (ep : String) (card : AgentCard) : Option String :=
  if jsTrim card.name = "" then
    some ("Agent card from " ++ ep ++ " missing/invalid required field: \"name\"")
  else if jsTrim card.url = "" then
    some ("Agent card from " ++ ep ++ " missing/invalid required field: \"url\"")
  else if jsTrim card.version = "" then
    some ("Agent card from " ++ ep ++ " missing/invalid required field: \"version\"")
  else if card.capabilities = false then
    some ("Agent card from " ++ ep ++ " missing/invalid required field: \"capabilities\"")
  else none

/-- JavaScript `substring(0, n)` (all ids involved are ASCII, so code units
and characters agree). -/
def substring0 (s : String) (n : Nat) : String :=
  String.mk (s.data.take n)

/-- Identifier derivation in `register`: a usable `card.id` is slugged
(bounded); if it is missing, not a usable string, or slugs to the empty
string, a fresh `randomUUID()` (here the parameter `uuid`) truncated to the
same bound is used instead.  `card.name` is never consulted. -/
def deriveRegistrationId (card : AgentCard) (uuid : String) : String :=
  match card.id with
  | some cid =>
    if jsTrim cid ≠ "" then
      let slugged := slugify (jsTrim cid) (some MAX_SERVER_ID_SLUG_LENGTH)
      if slugged ≠ "" then slugged
      else substring0 uuid MAX_SERVER_ID_SLUG_LENGTH
    else substring0 uuid MAX_SERVER_ID_SLUG_LENGTH
  | none => substring0 uuid MAX_SERVER_ID_SLUG_LENGTH

/-- The create-new tail of `register`: build the entry with the current
timestamp, persist it (write-through before acknowledging), then cache it. -/
def registerCreate (st : RegState) (registrationUrl : String) (card : AgentCard)
    (registrationId now : String) (writeOk : Bool) (writeErr : String) :
    Except String (RegisteredServer × RegState) :=
  if writeOk then
    let entry : RegisteredServer := ⟨registrationId, registrationUrl, card, now⟩
    .ok (entry, ⟨aset st.cache registrationId entry,
                 aset st.disk registrationId (some entry)⟩)
  else .error writeErr

/-- The durable-storage fallback of the idempotency check in `register`: a
disk record matching on both `registrationUrl` and card `url` is returned
unchanged (re-inserted into the cache for consistency); otherwise a new
record is created, overwriting whatever was stored under the identifier. -/
def registerTryDisk (st : RegState) (registrationUrl : String) (card : AgentCard)
    (registrationId now : String) (writeOk : Bool) (writeErr : String) :
    Except String (RegisteredServer × RegState) :=
  match readServerFile st.disk registrationId with
  | some diskEntry =>
    if diskEntry.registrationUrl = registrationUrl ∧ diskEntry.card.url = card.url
    then .ok (diskEntry, ⟨aset st.cache registrationId diskEntry, st.disk⟩)
    else registerCreate st registrationUrl card registrationId now writeOk writeErr
  | none => registerCreate st registrationUrl card registrationId now writeOk writeErr

/-- `A2ARegistry.register`.  The nondeterministic inputs of the source are
explicit parameters: `fetched` is the outcome of fetching and parsing the
agent card (`.error details` is a fetch/parse failure), `uuid` is the
`randomUUID()` value, `now` the current timestamp, and `writeOk` whether the
`fs.writeFile` call succeeds (`writeErr` being the message of the error it
rejects with otherwise).  On an error the state is unchanged: every throw in
the source happens before any mutation, and the cache insertion of the
create path happens only after the file write succeeded. -/
def registerOp (st : RegState) (registrationUrl : String)
    (fetched : Except String AgentCard) (uuid now : String)
    (writeOk : Bool) (writeErr : String) :
    Except String (RegisteredServer × RegState) :=
  match fetched with
  | .error details =>
    .error ("Could not retrieve/parse agent card. Details: " ++ details)
  | .ok card =>
    match validateCard (cardEndpoint registrationUrl) card with
    | some msg => .error msg
    | none =>
      let registrationId := deriveRegistrationId card uuid
      match alookup st.cache registrationId with
      | some existing =>
        if existing.registrationUrl = registrationUrl ∧ existing.card.url = card.url
        then .ok (existing, st)
        else registerTryDisk st registrationUrl card registrationId now writeOk writeErr
      | none => registerTryDisk st registrationUrl card registrationId now writeOk writeErr

/-- `A2ARegistry.get`: slug the requested id, hit the cache, else read
through from disk (caching the result under the slugged key).  The source
branches on whether the file's internal id matches the filename-derived key,
but both branches cache under the filename-derived key and return the file's
record; they differ only in logging. -/
def getOp (st : RegState) (id : String) : Option RegisteredServer × RegState :=
  let sluggedIdToSearch := slugify id (some MAX_SERVER_ID_SLUG_LENGTH)
  match alookup st.cache sluggedIdToSearch with
  | some s => (some s, st)
  | none =>
    match readServerFile st.disk sluggedIdToSearch with
    | none => (none, st)
    | some serverFromFile =>
      (some serverFromFile, ⟨aset st.cache sluggedIdToSearch serverFromFile, st.disk⟩)

/-- `A2ARegistry.list`: the current cache contents, in insertion order. -/
def listOp (st : RegState) : List RegisteredServer :=
  st.cache.map Prod.snd

/-- `A2ARegistry.remove`.  `unlinkOk` is whether the `fs.unlink` call
succeeds when the file exists; a failing unlink is caught and reported as
`false` with nothing mutated (the cache deletion comes after the unlink). -/
def removeOp (st : RegState) (id : String) (unlinkOk : Bool) : Bool × RegState :=
  let sluggedIdToRemove := slugify id (some MAX_SERVER_ID_SLUG_LENGTH)
  let existsInCache := (alookup st.cache sluggedIdToRemove).isSome
  let existsOnDisk := (alookup st.disk sluggedIdToRemove).isSome
  if ¬ existsInCache ∧ ¬ existsOnDisk then (false, st)
  else if existsOnDisk ∧ ¬ unlinkOk then (false, st)
  else (true, ⟨aerase st.cache sluggedIdToRemove, aerase st.disk sluggedIdToRemove⟩)

/-- The cache-rebuild loop of `reloadServers`: files that do not parse and
files whose record has a falsy (empty) `id` are skipped; every other record
is inserted keyed by the id stored inside the file. -/
def buildCache : List (String × Option RegisteredServer) →
    List (String × RegisteredServer) → List (String × RegisteredServer)
  | [], acc => acc
  | (_, none) :: rest, acc => buildCache rest acc
  | (_, some s) :: rest, acc =>
    buildCache rest (if s.id ≠ "" then aset acc s.id s else acc)

/-- `A2ARegistry.reloadServers`: clear the cache, rescan the directory and
rebuild.  `scanOk` is whether `fs.readdir` succeeds; on failure the error is
caught and `count 0` is returned with the cache left cleared. -/
def reloadOp (st : RegState) (scanOk : Bool) : Nat × RegState :=
  if scanOk then
    let newCache := buildCache st.disk []
    (newCache.length, ⟨newCache, st.disk⟩)
  else (0, ⟨[], st.disk⟩)

/-- States reachable through the public registry API from the empty state
constructed by `init` on a fresh directory.  Durable storage is mutated only
by the operations themselves (a single owning registry instance, no external
tampering). -/
inductive Reachable : RegState → Prop
  | init : Reachable ⟨[], []⟩
  | regStep (st : RegState) (url : String) (f : Except String AgentCard)
      (uuid now : String) (wOk : Bool) (we : String)
      (r : RegisteredServer) (st' : RegState) :
      Reachable st → registerOp st url f uuid now wOk we = .ok (r, st') →
      Reachable st'
  | getStep (st : RegState) (id : String) :
      Reachable st → Reachable (getOp st id).2
  | removeStep (st : RegState) (id : String) (uOk : Bool) :
      Reachable st → Reachable (removeOp st id uOk).2
  | reloadStep (st : RegState) (sOk : Bool) :
      Reachable st → Reachable (reloadOp st sOk).2

/-- The cache/disk consistency invariant of API-reachable states: keys are
unique on both tiers, every readable disk record carries the id it is filed
under, and every cached record is filed under its own id with an identical
durable copy. -/
structure GoodState (st : RegState) : Prop where
  cacheNodup : NodupKeys st.cache
  diskNodup : NodupKeys st.disk
  diskId : ∀ k r, alookup st.disk k = some (some r) → r.id = k
  cacheId : ∀ k r, alookup st.cache k = some r →
    r.id = k ∧ alookup st.disk k = some (some r)

def lb : String := "\x7b"

def rb : String := "\x7d"

def escChar (c : Char) : String :=
  if c = '"' then "\\\""
  else if c = '\\' then "\\\\"
  else if c = '\n' then "\\n"
  else if c = '\r' then "\\r"
  else if c = '\t' then "\\t"
  else String.singleton c

def escJson (s : String) : String := String.join (s.data.map escChar)

def jstr (s : String) : String := "\"" ++ escJson s ++ "\""

def joinStr (sep : String) : List String → String
  | [] => ""
  | [x] => x
  | x :: xs => x ++ sep ++ joinStr sep xs

def jsonObj (ind : String) (fields : List (String × String)) : String :=
  if fields.isEmpty then lb ++ rb
  else lb ++ "\n" ++
    joinStr ",\n" (fields.map (fun p => ind ++ "  " ++ jstr p.1 ++ ": " ++ p.2)) ++
    "\n" ++ ind ++ rb

def jsonArr (ind : String) (elems : List String) : String :=
  if elems.isEmpty then "[]"
  else "[\n" ++ joinStr ",\n" (elems.map (fun e => ind ++ "  " ++ e)) ++ "\n" ++ ind ++ "]"

def stringifySkill (ind : String) (sk : Skill) : String :=
  jsonObj ind ([("id", jstr sk.id)] ++
    (match sk.name with | some n => [("name", jstr n)] | none => []) ++
    (match sk.description with | some d => [("description", jstr d)] | none => []))

def stringifyCard (ind : String) (c : AgentCard) : String :=
  jsonObj ind (
    (match c.id with | some i => [("id", jstr i)] | none => []) ++
    [("name", jstr c.name), ("url", jstr c.url), ("version", jstr c.version)] ++
    (match c.description with | some d => [("description", jstr d)] | none => []) ++
    [("capabilities", if c.capabilities then "true" else "false"),
     ("skills", jsonArr (ind ++ "  ") (c.skills.map (stringifySkill (ind ++ "    "))))])

def stringifyServer (s : RegisteredServer) : String :=
  jsonObj "" [("id", jstr s.id), ("registrationUrl", jstr s.registrationUrl),
    ("card", stringifyCard "  " s.card), ("addedAt", jstr s.addedAt)]

def stringifySummaries (l : List (String × String × String)) : String :=
  jsonArr "" (l.map (fun t => jsonObj "  " [("id", jstr t.1), ("name", jstr t.2.1),
    ("registrationUrl", jstr t.2.2)]))

/-- One element of an A2A message `parts` array. -/
structure MsgPart where
  type : String
  text : String
deriving DecidableEq

/-- An A2A message: a role plus an optional `parts` array. -/
structure AgentMessage where
  role : String
  parts : Option (List MsgPart)
deriving DecidableEq

structure TaskStatus where
  state : String
  timestamp : String
  message : Option AgentMessage
deriving DecidableEq

/-- The A2A Task object as far as the bridge reads or builds it: the
handlers only consult `status?.message?.parts`; the remaining fields appear
in the mock response.  `artifacts` entries are opaque and never produced or
read, hence `Unit`. -/
structure TaskObj where
  id : String
  sessionId : String
  status : Option TaskStatus
  history : List (Option AgentMessage)
  artifacts : List Unit
deriving DecidableEq

structure RpcError where
  code : Int
  message : String
deriving DecidableEq

/-- JSON-RPC response envelope; the `jsonrpc` and `id` fields of the source
interface are never read by the bridge and are elided. -/
structure JsonRpcResponse where
  result : Option TaskObj
  error : Option RpcError
deriving DecidableEq

/-- Outcome of one `sendA2ARequest` exchange: a non-2xx HTTP response, a
rejected fetch (a FetchError carrying a string `code`), or a parsed JSON-RPC
response document. -/
inductive NetOutcome
  | httpError (status : Nat)
  | netFail (code : String) (message : String)
  | ok (resp : JsonRpcResponse)
deriving DecidableEq

/-- The errors `callSendTask` can throw, by provenance: unknown registry id,
non-2xx HTTP status (`A2A HTTP error: <status>`), rejected fetch (an error
object carrying a string `code` property), or a JSON-RPC error object from
the remote agent (rethrown with the remote message). -/
inductive A2AError
  | unknownServer (serverId : String)
  | httpError (status : Nat)
  | fetchError (code : String) (message : String)
  | appError (message : String)
deriving DecidableEq

/-- The `.message` of the thrown `Error`. -/
def A2AError.errMessage : A2AError → String
  | .unknownServer serverId => "Unknown A2A server id: " ++ serverId ++ ". Register it first."
  | .httpError status => "A2A HTTP error: " ++ toString status
  | .fetchError _ message => message
  | .appError message => message

/-- The string `code` property, present only on a FetchError. -/
def A2AError.errCode : A2AError → Option String
  | .fetchError code _ => some code
  | _ => none

/-- Message derivation of the `a2a_send_task` catch block: an error carrying
a string `code` (a FetchError) is reported as `A2A fetch failed. Code:
<code>`; any other `Error` by its own message. -/
def sendTaskErrorText (e : A2AError) : String :=
  match e.errCode with
  | some code => "A2A fetch failed. Code: " ++ code
  | none => e.errMessage

/-- Message derivation of the synthesized skill-tool catch block: always the
error's own message. -/
def skillErrorText (e : A2AError) : String := e.errMessage

/-- The canned success `Task` returned in mock mode (its timestamp is the
current time, the one nondeterministic ingredient). -/
def mockTask (taskId : String) (message : Option AgentMessage) (now : String) : TaskObj :=
  { id := taskId
    sessionId := "mock-session-id"
    status := some
      { state := "completed"
        timestamp := now
        message := some
          { role := "agent"
            parts := some [⟨"text", "Mock agent acknowledges task: " ++ taskId⟩] } }
    history := [message]
    artifacts := [] }

structure SendTaskInput where
  serverId : String
  taskId : String
  message : Option AgentMessage
deriving DecidableEq

/-- `callSendTask`: look the server up in the registry (throwing on an
unknown id), short-circuit with the mock response when mock mode is enabled,
otherwise send the JSON-RPC request (`net` is the exchange's outcome),
rethrowing a JSON-RPC error's message and returning the result payload
otherwise.  The correlation id sent on the wire does not influence any
observable output and is not modelled. -/
def callSendTask (st : RegState) (mock : Bool) (input : SendTaskInput)
    (net : NetOutcome) (now : String) :
    Except A2AError (Option TaskObj) × RegState :=
  match getOp st input.serverId with
  | (none, st2) => (.error (.unknownServer input.serverId), st2)
  | (some _, st2) =>
    if mock then (.ok (some (mockTask input.taskId input.message now)), st2)
    else
      match net with
      | .httpError status => (.error (.httpError status), st2)
      | .netFail code message => (.error (.fetchError code message), st2)
      | .ok resp =>
        match resp.error with
        | some e => (.error (.appError e.message), st2)
        | none => (.ok resp.result, st2)

/-- The optional chain `result?.status?.message?.parts?.map(part => ...)`
followed by the fallback to a default parts list.  `|| deflt` (send-task
handler) and `?? deflt` (skill handler) agree here: a present `parts` array
is truthy even when empty, so only a missing chain selects the default. -/
def extractReplyParts (deflt : List MsgPart) (result : Option TaskObj) : List MsgPart :=
  match (((result.bind (·.status)).bind (·.message)).bind (·.parts)) with
  | some parts => parts.map (fun part => ⟨"text", part.text⟩)
  | none => deflt

/-- The uniform MCP tool reply: text content segments plus an error flag. -/
structure ToolResult where
  content : List MsgPart
  isError : Bool
deriving DecidableEq

def textPart (t : String) : MsgPart := ⟨"text", t⟩

/-- The `a2a_send_task` tool handler. -/
def a2aSendTaskHandler (st : RegState) (mock : Bool) (args : SendTaskInput)
    (net : NetOutcome) (now : String) : ToolResult × RegState :=
  match callSendTask st mock args net now with
  | (.ok result, st2) =>
    (⟨extractReplyParts [textPart "Mock task completed (no specific agent reply)"] result,
      false⟩, st2)
  | (.error e, st2) => (⟨[textPart (sendTaskErrorText e)], true⟩, st2)

/-- The handler of a synthesized `<serverId>_<skillId>` tool for the agent
registered as `srvId`: wrap the free-text message, generate a fresh task id
(the parameter `uuid`, a `randomUUID()` call per invocation), delegate to
`callSendTask`, translate the outcome. -/
def skillToolHandler (st : RegState) (mock : Bool) (srvId messageArg uuid : String)
    (net : NetOutcome) (now : String) : ToolResult × RegState :=
  let taskMessage : AgentMessage := ⟨"user", some [⟨"text", messageArg⟩]⟩
  match callSendTask st mock ⟨srvId, uuid, some taskMessage⟩ net now with
  | (.ok result, st2) =>
    (⟨extractReplyParts [textPart "No reply received."] result, false⟩, st2)
  | (.error e, st2) => (⟨[textPart (skillErrorText e)], true⟩, st2)

/-- Tool naming in `registerSkillTools`: the index.ts local `slugify` is the
same pipeline with no length bound. -/
def makeSkillToolName (serverId skillId : String) : String :=
  slugify serverId none ++ "_" ++ slugify skillId none

/-- `a2a_register_server`: `entry.card.name ?? entry.id` always selects the
name, a mandatory string field. -/
def a2aRegisterServerHandler (st : RegState) (url : String)
    (fetched : Except String AgentCard) (uuid now : String)
    (writeOk : Bool) (writeErr : String) : ToolResult × RegState :=
  match registerOp st url fetched uuid now writeOk writeErr with
  | .ok (entry, st2) =>
    (⟨[textPart ("Registered A2A server " ++ entry.card.name)], false⟩, st2)
  | .error msg => (⟨[textPart msg], true⟩, st)

/-- `a2a_reload_servers`: `reloadServers` recovers its own scan failure and
always resolves, so the handler's catch branch is unreachable. -/
def a2aReloadServersHandler (st : RegState) (scanOk : Bool) : ToolResult × RegState :=
  let res := reloadOp st scanOk
  (⟨[textPart ("Successfully reloaded A2A server configurations. Found " ++
      toString res.1 ++ " servers.")], false⟩, res.2)

/-- `a2a_list_servers`: summaries of the cache contents. -/
def a2aListServersHandler (st : RegState) : ToolResult × RegState :=
  let serverSummaries := (listOp st).map (fun s => (s.id, s.card.name, s.registrationUrl))
  (⟨[textPart ("Found " ++ toString serverSummaries.length ++
      " registered A2A servers:\n" ++ stringifySummaries serverSummaries)], false⟩, st)

/-- `a2a_get_server_details`. -/
def a2aGetServerDetailsHandler (st : RegState) (serverId : String) : ToolResult × RegState :=
  match getOp st serverId with
  | (none, st2) =>
    (⟨[textPart ("A2A server with ID \"" ++ serverId ++ "\" not found.")], true⟩, st2)
  | (some serverDetails, st2) =>
    (⟨[textPart ("Details for A2A server \"" ++ serverId ++ "\":\n" ++
        stringifyServer serverDetails)], false⟩, st2)

/-- `a2a_remove_server`. -/
def a2aRemoveServerHandler (st : RegState) (serverId : String) (unlinkOk : Bool) :
    ToolResult × RegState :=
  let res := removeOp st serverId unlinkOk
  if res.1 then
    (⟨[textPart ("A2A server with ID \"" ++ serverId ++ "\" successfully removed.")],
      false⟩, res.2)
  else
    (⟨[textPart ("Failed to remove A2A server with ID \"" ++ serverId ++
        "\". It might not exist or an error occurred.")], true⟩, res.2)

deriving instance DecidableEq for Except

/-- A typical agent card supplying its own id (Scenario A of the spec). -/
def bellaCard : AgentCard :=
  ⟨some "Bella", "Bella", "https://bella.example/api", "1.0.0", none, true,
   [⟨"special-of-day", none, none⟩]⟩

def bellaServer : RegisteredServer :=
  ⟨"bella", "https://bella.example", bellaCard, "2024-01-01T00:00:00.000Z"⟩

/-- The state after registering `bellaCard` from the empty state. -/
def sampleState : RegState :=
  ⟨[("bella", bellaServer)], [("bella", some bellaServer)]⟩

/-- A card that supplies no id at all (Scenario B of the spec). -/
def noIdCard : AgentCard :=
  ⟨none, "AnonAgent", "https://anon.example/api", "1", none, true, []⟩

def anonServer : RegisteredServer :=
  ⟨"33333333-3333-3333-3", "https://anon.example", noIdCard, "t2"⟩

/-- A second distinct card whose id collides with `bellaCard` under slugging. -/
def bellaCard2 : AgentCard :=
  ⟨some "Bella", "Bella Two", "https://bella2.example/api", "2", none, true, []⟩

/-- A record whose internal id differs from the base name of the file it is
stored in (external tampering, tolerated by `get`). -/
def mismatchServer : RegisteredServer :=
  ⟨"bee", "https://one.example",
   ⟨some "bee", "One", "https://one.example/api", "1", none, true, []⟩, "t1"⟩

/-- A second record sharing the internal id `bee` under another file name. -/
def mismatchServer2 : RegisteredServer :=
  ⟨"bee", "https://two.example",
   ⟨some "bee", "Two", "https://two.example/api", "1", none, true, []⟩, "t2"⟩

/-- Run a sequence of `register` calls (successful card fetches, reliable
writes), all required to succeed, threading the state. -/
def registerAll (st : RegState) :
    List (String × AgentCard × String × String) →
    Option (List RegisteredServer × RegState)
  | [] => some ([], st)
  | (url, card, uuid, now) :: rest =>
    match registerOp st url (.ok card) uuid now true "" with
    | .error _ => none
    | .ok (r, st2) =>
      match registerAll st2 rest with
      | none => none
      | some (rs, stf) => some (r :: rs, stf)

/-- The identifier a registration input derives. -/
def regInputId (i : String × AgentCard × String × String) : String :=
  deriveRegistrationId i.2.1 i.2.2.1

/-- The record a fresh registration input creates. -/
def mkRegEntry (i : String × AgentCard × String × String) : RegisteredServer :=
  ⟨regInputId i, i.1, i.2.1, i.2.2.2⟩

/-- Uniform-envelope shape: every content segment is a text part. -/
def allText (res : ToolResult) : Prop := ∀ p ∈ res.content, p.type = "text"

/-! ## Theorems -/

theorem mem_of_mem_dropWhile {p : Char → Bool} {l : List Char} {c : Char}
    (h : c ∈ l.dropWhile p) : c ∈ l := by
  induction l with
  | nil => simp [List.dropWhile] at h
  | cons a t ih =>
    rw [List.dropWhile_cons] at h
    by_cases hp : p a
    · rw [if_pos hp] at h
      exact List.mem_cons_of_mem _ (ih h)
    · rw [if_neg hp] at h
      exact h

theorem length_dropWhile_le' (p : Char → Bool) (l : List Char) :
    (l.dropWhile p).length ≤ l.length := by
  induction l with
  | nil => simp
  | cons a t ih =>
    rw [List.dropWhile_cons]
    by_cases hp : p a <;> simp_all
    omega

theorem mem_of_mem_jsTrimList {l : List Char} {c : Char} (h : c ∈ jsTrimList l) :
    c ∈ l := by
  unfold jsTrimList at h
  rw [List.mem_reverse] at h
  exact mem_of_mem_dropWhile (List.mem_reverse.mp (mem_of_mem_dropWhile h))

theorem mem_of_mem_rstripHyphens {l : List Char} {c : Char} (h : c ∈ rstripHyphens l) :
    c ∈ l := by
  unfold rstripHyphens at h
  rw [List.mem_reverse] at h
  exact List.mem_reverse.mp (mem_of_mem_dropWhile h)

theorem rstripHyphens_length_le (l : List Char) :
    (rstripHyphens l).length ≤ l.length := by
  unfold rstripHyphens
  calc (l.reverse.dropWhile (· == '-')).reverse.length
      = (l.reverse.dropWhile (· == '-')).length := by rw [List.length_reverse]
    _ ≤ l.reverse.length := length_dropWhile_le' _ _
    _ = l.length := by rw [List.length_reverse]

theorem mem_squashWs {l : List Char} {c : Char} (h : c ∈ squashWs l) :
    c = '-' ∨ c ∈ l := by
  induction l using squashWs.induct with
  | case1 => simp [squashWs] at h
  | case2 a ha =>
      rw [squashWs, if_pos ha] at h
      simp at h
      simp [h]
  | case3 a ha =>
      rw [squashWs, if_neg ha] at h
      exact Or.inr h
  | case4 a d rest ha hd ih =>
      rw [squashWs, if_pos ha, if_pos hd] at h
      rcases ih h with h1 | h1
      · exact Or.inl h1
      · exact Or.inr (List.mem_cons_of_mem _ h1)
  | case5 a d rest ha hd ih =>
      rw [squashWs, if_pos ha, if_neg hd] at h
      rcases List.mem_cons.mp h with h1 | h1
      · exact Or.inl h1
      · rcases ih h1 with h2 | h2
        · exact Or.inl h2
        · exact Or.inr (List.mem_cons_of_mem _ h2)
  | case6 a d rest ha ih =>
      rw [squashWs, if_neg ha] at h
      rcases List.mem_cons.mp h with h1 | h1
      · exact Or.inr (h1 ▸ List.mem_cons_self _ _)
      · rcases ih h1 with h2 | h2
        · exact Or.inl h2
        · exact Or.inr (List.mem_cons_of_mem _ h2)

theorem mem_squashHyphens {l : List Char} {c : Char} (h : c ∈ squashHyphens l) :
    c ∈ l := by
  induction l using squashHyphens.induct with
  | case1 => simp [squashHyphens] at h
  | case2 a =>
      rw [squashHyphens] at h
      exact h
  | case3 a d rest ha hd ih =>
      rw [squashHyphens, if_pos ha, if_pos hd] at h
      exact List.mem_cons_of_mem _ (ih h)
  | case4 a d rest ha hd ih =>
      rw [squashHyphens, if_pos ha, if_neg hd] at h
      rcases List.mem_cons.mp h with h1 | h1
      · simp_all
      · exact List.mem_cons_of_mem _ (ih h1)
  | case5 a d rest ha ih =>
      rw [squashHyphens, if_neg ha] at h
      rcases List.mem_cons.mp h with h1 | h1
      · simp [h1]
      · exact List.mem_cons_of_mem _ (ih h1)

/-- On input consisting only of characters that are not word characters even
after lowering, the slug pipeline produces the empty list. -/
theorem slugCore_eq_nil {l : List Char}
    (h : ∀ c ∈ l, isWordChar (Char.toLower c) = false) : slugCore l = [] := by
  unfold slugCore
  have hlt : ∀ c ∈ jsTrimList (l.map Char.toLower), isWordChar c = false := by
    intro c hc
    rcases List.mem_map.mp (mem_of_mem_jsTrimList hc) with ⟨a, ha, rfl⟩
    exact h a ha
  have hfil : ∀ c ∈ (squashWs (jsTrimList (l.map Char.toLower))).filter
      (fun c => isWordChar c || c == '-'), c = '-' := by
    intro c hc
    rcases List.mem_filter.mp hc with ⟨hmem, hkeep⟩
    rcases mem_squashWs hmem with h1 | h1
    · exact h1
    · have := hlt c h1
      simp [this] at hkeep
      exact hkeep
  have hsq : ∀ c ∈ squashHyphens ((squashWs (jsTrimList (l.map Char.toLower))).filter
      (fun c => isWordChar c || c == '-')), (c == '-') = true := by
    intro c hc
    simp [hfil c (mem_squashHyphens hc)]
  rw [List.dropWhile_eq_nil_iff.mpr hsq]
  rfl

theorem string_mk_length (l : List Char) : (String.mk l).length = l.length := rfl

/-- Evaluating the slug pipeline never throws and is deterministic; these
facts are immediate from totality of the embedding, but the empty-input,
unknown-input and length-bound behaviour need the lemmas above. -/
theorem slugify_unknown_only (t : String) (m : Option Nat)
    (h : ∀ c ∈ t.data, isWordChar (Char.toLower c) = false) : slugify t m = "" := by
  unfold slugify
  by_cases ht : t = ""
  · simp [ht]
  · rw [if_neg ht, slugCore_eq_nil h]
    cases m with
    | none => rfl
    | some m =>
      show String.mk (if m ≠ 0 ∧ ([] : List Char).length > m
        then rstripHyphens (([] : List Char).take m) else []) = ""
      have : ¬ (m ≠ 0 ∧ ([] : List Char).length > m) := by simp
      rw [if_neg this]

theorem slugify_length_le (t : String) (b : Nat) (hb : 1 ≤ b) :
    (slugify t (some b)).length ≤ b := by
  unfold slugify
  by_cases ht : t = ""
  · simp [ht, String.length]
  · rw [if_neg ht]
    show (String.mk (if b ≠ 0 ∧ (slugCore t.data).length > b
      then rstripHyphens ((slugCore t.data).take b) else slugCore t.data)).length ≤ b
    by_cases hc : b ≠ 0 ∧ (slugCore t.data).length > b
    · rw [if_pos hc]
      calc (String.mk (rstripHyphens ((slugCore t.data).take b))).length
          = (rstripHyphens ((slugCore t.data).take b)).length := string_mk_length _
        _ ≤ ((slugCore t.data).take b).length := rstripHyphens_length_le _
        _ ≤ b := by simp [List.length_take]
    · rw [if_neg hc]
      rw [string_mk_length]
      omega

theorem alookup_aset_self {α : Type} (l : List (String × α)) (k : String) (v : α) :
    alookup (aset l k v) k = some v := by
  induction l with
  | nil => simp [aset, alookup]
  | cons p rest ih =>
    obtain ⟨k1, v1⟩ := p
    rw [aset]
    by_cases hk : k1 = k
    · rw [if_pos hk, alookup, if_pos rfl]
    · rw [if_neg hk, alookup, if_neg hk]
      exact ih

theorem alookup_aset_ne {α : Type} (l : List (String × α)) (k k2 : String) (v : α)
    (h : k2 ≠ k) : alookup (aset l k v) k2 = alookup l k2 := by
  induction l with
  | nil =>
    have hne : k ≠ k2 := fun he => h he.symm
    simp [aset, alookup, hne]
  | cons p rest ih =>
    obtain ⟨k1, v1⟩ := p
    rw [aset]
    by_cases hk : k1 = k
    · rw [if_pos hk, alookup, alookup, if_neg (fun he => h he.symm), hk,
        if_neg (fun he => h he.symm)]
    · rw [if_neg hk, alookup, alookup]
      by_cases hk2 : k1 = k2
      · rw [if_pos hk2, if_pos hk2]
      · rw [if_neg hk2, if_neg hk2]
        exact ih

theorem aset_eq_append {α : Type} (l : List (String × α)) (k : String) (v : α)
    (h : alookup l k = none) : aset l k v = l ++ [(k, v)] := by
  induction l with
  | nil => simp [aset]
  | cons p rest ih =>
    obtain ⟨k1, v1⟩ := p
    rw [alookup] at h
    by_cases hk : k1 = k
    · rw [if_pos hk] at h
      exact absurd h (by simp)
    · rw [if_neg hk] at h
      rw [aset, if_neg hk, List.cons_append, ih h]

theorem mem_aset {α : Type} {l : List (String × α)} {k : String} {v : α} {p : String × α}
    (h : p ∈ aset l k v) : p = (k, v) ∨ p ∈ l := by
  induction l with
  | nil => simp [aset] at h; simp [h]
  | cons q rest ih =>
    obtain ⟨k1, v1⟩ := q
    rw [aset] at h
    by_cases hk : k1 = k
    · rw [if_pos hk] at h
      rcases List.mem_cons.mp h with h1 | h1
      · exact Or.inl h1
      · exact Or.inr (List.mem_cons_of_mem _ h1)
    · rw [if_neg hk] at h
      rcases List.mem_cons.mp h with h1 | h1
      · exact Or.inr (h1 ▸ List.mem_cons_self _ _)
      · rcases ih h1 with h2 | h2
        · exact Or.inl h2
        · exact Or.inr (List.mem_cons_of_mem _ h2)

theorem alookup_eq_none_of_not_mem {α : Type} {l : List (String × α)} {k : String}
    (h : k ∉ l.map Prod.fst) : alookup l k = none := by
  induction l with
  | nil => rfl
  | cons p rest ih =>
    obtain ⟨k1, v1⟩ := p
    simp only [List.map_cons, List.mem_cons] at h
    push_neg at h
    rw [alookup, if_neg (fun he => h.1 he.symm)]
    exact ih h.2

theorem alookup_mem {α : Type} {l : List (String × α)} {k : String} {v : α}
    (h : alookup l k = some v) : (k, v) ∈ l := by
  induction l with
  | nil => simp [alookup] at h
  | cons p rest ih =>
    obtain ⟨k1, v1⟩ := p
    rw [alookup] at h
    by_cases hk : k1 = k
    · rw [if_pos hk] at h
      subst hk
      simp at h
      simp [h]
    · rw [if_neg hk] at h
      exact List.mem_cons_of_mem _ (ih h)

theorem alookup_isSome_of_mem {α : Type} {l : List (String × α)} {p : String × α}
    (h : p ∈ l) : (alookup l p.1).isSome := by
  induction l with
  | nil => simp at h
  | cons q rest ih =>
    obtain ⟨k1, v1⟩ := q
    rcases List.mem_cons.mp h with h1 | h1
    · rw [alookup, h1, if_pos rfl]
      rfl
    · rw [alookup]
      by_cases hk : k1 = p.1
      · rw [if_pos hk]; rfl
      · rw [if_neg hk]
        exact ih h1

theorem alookup_aerase_self {α : Type} (l : List (String × α)) (k : String) :
    alookup (aerase l k) k = none := by
  apply alookup_eq_none_of_not_mem
  intro hmem
  rcases List.mem_map.mp hmem with ⟨p, hp, hk⟩
  rcases List.mem_filter.mp hp with ⟨_, hne⟩
  simp at hne
  exact hne hk

theorem mem_aerase {α : Type} {l : List (String × α)} {k : String} {p : String × α}
    (h : p ∈ aerase l k) : p ∈ l ∧ p.1 ≠ k := by
  rcases List.mem_filter.mp h with ⟨h1, h2⟩
  simp at h2
  exact ⟨h1, h2⟩

theorem alookup_isSome_of_key_mem {α : Type} {l : List (String × α)} {k : String}
    (h : k ∈ l.map Prod.fst) : (alookup l k).isSome := by
  rcases List.mem_map.mp h with ⟨p, hp, rfl⟩
  exact alookup_isSome_of_mem hp

theorem nodupKeys_aset {α : Type} {l : List (String × α)} (k : String) (v : α)
    (h : NodupKeys l) : NodupKeys (aset l k v) := by
  by_cases hk : alookup l k = none
  · rw [aset_eq_append l k v hk]
    unfold NodupKeys at h ⊢
    rw [List.map_append]
    simp only [List.map_cons, List.map_nil]
    rw [List.nodup_append]
    refine ⟨h, List.nodup_singleton _, ?_⟩
    intro a ha hb
    simp at hb
    subst hb
    have := alookup_isSome_of_key_mem ha
    rw [hk] at this
    simp at this
  · -- key present: aset replaces in place, keys unchanged
    have : (aset l k v).map Prod.fst = l.map Prod.fst := by
      clear h
      induction l with
      | nil => exact absurd rfl hk
      | cons p rest ih =>
        obtain ⟨k1, v1⟩ := p
        rw [aset]
        by_cases he : k1 = k
        · rw [if_pos he, List.map_cons, List.map_cons, he]
        · rw [if_neg he, List.map_cons, List.map_cons]
          rw [alookup, if_neg he] at hk
          rw [ih hk]
    unfold NodupKeys at h ⊢
    rw [this]
    exact h

theorem nodupKeys_aerase {α : Type} {l : List (String × α)} (k : String)
    (h : NodupKeys l) : NodupKeys (aerase l k) := by
  unfold NodupKeys at h ⊢
  unfold aerase
  exact List.Nodup.sublist ((List.filter_sublist l).map Prod.fst) h

/-- Outcome analysis for a successful `register`: it either returned a
matching record from the cache, returned a matching record read from disk,
or created, persisted and cached a brand-new record. -/
theorem registerOp_ok {st : RegState} {url : String} {f : Except String AgentCard}
    {uuid now writeErr : String} {writeOk : Bool} {r : RegisteredServer} {st' : RegState}
    (h : registerOp st url f uuid now writeOk writeErr = .ok (r, st')) :
    ∃ card, f = .ok card ∧ validateCard (cardEndpoint url) card = none ∧
      ((alookup st.cache (deriveRegistrationId card uuid) = some r ∧
          r.registrationUrl = url ∧ r.card.url = card.url ∧ st' = st) ∨
       (readServerFile st.disk (deriveRegistrationId card uuid) = some r ∧
          r.registrationUrl = url ∧ r.card.url = card.url ∧
          st' = ⟨aset st.cache (deriveRegistrationId card uuid) r, st.disk⟩) ∨
       (r = ⟨deriveRegistrationId card uuid, url, card, now⟩ ∧ writeOk = true ∧
          st' = ⟨aset st.cache (deriveRegistrationId card uuid) r,
                 aset st.disk (deriveRegistrationId card uuid) (some r)⟩)) := by
  cases f with
  | error d => simp [registerOp] at h
  | ok card =>
    refine ⟨card, rfl, ?_⟩
    cases hv : validateCard (cardEndpoint url) card with
    | some msg => simp [registerOp, hv] at h
    | none =>
      simp only [registerOp, hv] at h
      refine ⟨rfl, ?_⟩
      have hcreate : ∀ st0 : RegState,
          registerCreate st0 url card (deriveRegistrationId card uuid) now writeOk writeErr
            = .ok (r, st') →
          st0.cache = st.cache → st0.disk = st.disk →
          (r = ⟨deriveRegistrationId card uuid, url, card, now⟩ ∧ writeOk = true ∧
            st' = ⟨aset st.cache (deriveRegistrationId card uuid) r,
                   aset st.disk (deriveRegistrationId card uuid) (some r)⟩) := by
        intro st0 hc hc1 hc2
        cases writeOk with
        | false => simp [registerCreate] at hc
        | true =>
          simp only [registerCreate, if_true] at hc
          simp only [Except.ok.injEq, Prod.mk.injEq] at hc
          obtain ⟨hr, hst⟩ := hc
          subst hr
          exact ⟨rfl, rfl, by rw [← hst, hc1, hc2]⟩
      have htd : registerTryDisk st url card (deriveRegistrationId card uuid) now writeOk writeErr
            = .ok (r, st') →
          ((readServerFile st.disk (deriveRegistrationId card uuid) = some r ∧
            r.registrationUrl = url ∧ r.card.url = card.url ∧
            st' = ⟨aset st.cache (deriveRegistrationId card uuid) r, st.disk⟩) ∨
           (r = ⟨deriveRegistrationId card uuid, url, card, now⟩ ∧ writeOk = true ∧
            st' = ⟨aset st.cache (deriveRegistrationId card uuid) r,
                   aset st.disk (deriveRegistrationId card uuid) (some r)⟩)) := by
        intro ht
        cases hd : readServerFile st.disk (deriveRegistrationId card uuid) with
        | some diskEntry =>
          simp only [registerTryDisk, hd] at ht
          by_cases hm : diskEntry.registrationUrl = url ∧ diskEntry.card.url = card.url
          · rw [if_pos hm] at ht
            simp only [Except.ok.injEq, Prod.mk.injEq] at ht
            obtain ⟨hr, hst⟩ := ht
            subst hr
            exact Or.inl ⟨rfl, hm.1, hm.2, hst.symm⟩
          · rw [if_neg hm] at ht
            exact Or.inr (hcreate st ht rfl rfl)
        | none =>
          simp only [registerTryDisk, hd] at ht
          exact Or.inr (hcreate st ht rfl rfl)
      cases hl : alookup st.cache (deriveRegistrationId card uuid) with
      | some existing =>
        simp only [hl] at h
        by_cases hm : existing.registrationUrl = url ∧ existing.card.url = card.url
        · rw [if_pos hm] at h
          simp only [Except.ok.injEq, Prod.mk.injEq] at h
          obtain ⟨hr, hst⟩ := h
          subst hr
          exact Or.inl ⟨rfl, hm.1, hm.2, hst.symm⟩
        · rw [if_neg hm] at h
          rcases htd h with h1 | h1
          · exact Or.inr (Or.inl h1)
          · exact Or.inr (Or.inr h1)
      | none =>
        simp only [hl] at h
        rcases htd h with h1 | h1
        · exact Or.inr (Or.inl h1)
        · exact Or.inr (Or.inr h1)

theorem alookup_aerase_ne {α : Type} (l : List (String × α)) (k k2 : String)
    (h : k2 ≠ k) : alookup (aerase l k) k2 = alookup l k2 := by
  induction l with
  | nil => rfl
  | cons p rest ih =>
    obtain ⟨k1, v1⟩ := p
    unfold aerase at ih ⊢
    rw [List.filter_cons]
    by_cases hk : k1 = k
    · rw [if_neg (by simp [hk])]
      rw [alookup, if_neg (fun he : k1 = k2 => h (he ▸ hk))]
      exact ih
    · rw [if_pos (by simp [hk])]
      rw [alookup, alookup]
      by_cases hk2 : k1 = k2
      · rw [if_pos hk2, if_pos hk2]
      · rw [if_neg hk2, if_neg hk2]
        exact ih

theorem alookup_of_mem_nodup {α : Type} {l : List (String × α)} {p : String × α}
    (hn : NodupKeys l) (h : p ∈ l) : alookup l p.1 = some p.2 := by
  induction l with
  | nil => simp at h
  | cons q rest ih =>
    obtain ⟨k1, v1⟩ := q
    unfold NodupKeys at hn
    rw [List.map_cons, List.nodup_cons] at hn
    rcases List.mem_cons.mp h with h1 | h1
    · rw [h1, alookup, if_pos rfl]
    · rw [alookup]
      by_cases hk : k1 = p.1
      · exfalso
        apply hn.1
        rw [hk]
        exact List.mem_map.mpr ⟨p, h1, rfl⟩
      · rw [if_neg hk]
        exact ih hn.2 h1

theorem readServerFile_eq_some {disk : List (String × Option RegisteredServer)}
    {k : String} {r : RegisteredServer} :
    readServerFile disk k = some r ↔ alookup disk k = some (some r) := by
  unfold readServerFile
  cases h : alookup disk k with
  | none => simp
  | some o => cases o with
    | none => simp
    | some s => simp

theorem mem_buildCache {disk : List (String × Option RegisteredServer)}
    {acc : List (String × RegisteredServer)} {p : String × RegisteredServer}
    (h : p ∈ buildCache disk acc) :
    p ∈ acc ∨ (∃ k, (k, some p.2) ∈ disk ∧ p.1 = p.2.id) := by
  induction disk generalizing acc with
  | nil =>
    simp only [buildCache] at h
    exact Or.inl h
  | cons hd rest ih =>
    obtain ⟨k, v⟩ := hd
    cases v with
    | none =>
      simp only [buildCache] at h
      rcases ih h with h1 | ⟨k2, h2, h3⟩
      · exact Or.inl h1
      · exact Or.inr ⟨k2, List.mem_cons_of_mem _ h2, h3⟩
    | some s =>
      simp only [buildCache] at h
      rcases ih h with h1 | ⟨k2, h2, h3⟩
      · by_cases hid : s.id ≠ ""
        · rw [if_pos hid] at h1
          rcases mem_aset h1 with h2 | h2
          · refine Or.inr ⟨k, ?_, ?_⟩
            · rw [h2]
              exact List.mem_cons_self _ _
            · rw [h2]
          · exact Or.inl h2
        · rw [if_neg hid] at h1
          exact Or.inl h1
      · exact Or.inr ⟨k2, List.mem_cons_of_mem _ h2, h3⟩

theorem nodupKeys_buildCache (disk : List (String × Option RegisteredServer))
    (acc : List (String × RegisteredServer)) (h : NodupKeys acc) :
    NodupKeys (buildCache disk acc) := by
  induction disk generalizing acc with
  | nil => exact h
  | cons hd rest ih =>
    obtain ⟨k, v⟩ := hd
    cases v with
    | none => exact ih acc h
    | some s =>
      simp only [buildCache]
      by_cases hid : s.id ≠ ""
      · rw [if_pos hid]
        exact ih _ (nodupKeys_aset _ _ h)
      · rw [if_neg hid]
        exact ih acc h

theorem buildCache_lookup_of_not_mem (disk : List (String × Option RegisteredServer))
    (acc : List (String × RegisteredServer)) (i : String)
    (h : ∀ k s, (k, some s) ∈ disk → s.id ≠ i) :
    alookup (buildCache disk acc) i = alookup acc i := by
  induction disk generalizing acc with
  | nil => rfl
  | cons hd rest ih =>
    obtain ⟨k, v⟩ := hd
    cases v with
    | none =>
      simp only [buildCache]
      exact ih acc (fun k2 s2 hm => h k2 s2 (List.mem_cons_of_mem _ hm))
    | some s =>
      simp only [buildCache]
      have hs : s.id ≠ i := h k s (List.mem_cons_self _ _)
      by_cases hid : s.id ≠ ""
      · rw [if_pos hid]
        rw [ih _ (fun k2 s2 hm => h k2 s2 (List.mem_cons_of_mem _ hm))]
        exact alookup_aset_ne _ _ _ _ (fun he => hs he.symm)
      · rw [if_neg hid]
        exact ih acc (fun k2 s2 hm => h k2 s2 (List.mem_cons_of_mem _ hm))

theorem buildCache_lookup_of_mem (disk : List (String × Option RegisteredServer))
    (acc : List (String × RegisteredServer)) (i : String) (r : RegisteredServer)
    (hnd : NodupKeys disk) (hid : ∀ k s, alookup disk k = some (some s) → s.id = k)
    (h : alookup disk i = some (some r)) (hne : i ≠ "") :
    alookup (buildCache disk acc) i = some r := by
  induction disk generalizing acc with
  | nil => simp [alookup] at h
  | cons hd rest ih =>
    obtain ⟨k, v⟩ := hd
    unfold NodupKeys at hnd
    rw [List.map_cons, List.nodup_cons] at hnd
    by_cases hk : k = i
    · subst hk
      rw [alookup, if_pos rfl] at h
      simp at h
      subst h
      have hrid : r.id = k := hid k r (by rw [alookup, if_pos rfl])
      simp only [buildCache]
      rw [if_pos (hrid.symm ▸ hne)]
      rw [buildCache_lookup_of_not_mem rest _ k ?hfresh]
      · rw [hrid]
        exact alookup_aset_self _ _ _
      case hfresh =>
        intro k2 s2 hm he
        apply hnd.1
        have : alookup rest k2 = some (some s2) := alookup_of_mem_nodup hnd.2 hm
        have hs2 : s2.id = k2 := by
          apply hid
          rw [alookup]
          by_cases hkk : k = k2
          · exfalso
            apply hnd.1
            rw [hkk]
            exact List.mem_map.mpr ⟨(k2, some s2), hm, rfl⟩
          · rw [if_neg hkk]
            exact this
        have hk2k : k2 = k := hs2 ▸ he
        show k ∈ List.map Prod.fst rest
        rw [← hk2k]
        exact List.mem_map.mpr ⟨(k2, some s2), hm, rfl⟩
    · rw [alookup, if_neg hk] at h
      have hid2 : ∀ k2 s2, alookup rest k2 = some (some s2) → s2.id = k2 := by
        intro k2 s2 hl
        apply hid
        rw [alookup]
        by_cases hkk : k = k2
        · exfalso
          subst hkk
          have := alookup_mem hl
          apply hnd.1
          exact List.mem_map.mpr ⟨(k, some s2), this, rfl⟩
        · rw [if_neg hkk]
          exact hl
      cases v with
      | none =>
        simp only [buildCache]
        exact ih acc hnd.2 hid2 h
      | some s =>
        simp only [buildCache]
        by_cases hsid : s.id ≠ ""
        · rw [if_pos hsid]
          exact ih _ hnd.2 hid2 h
        · rw [if_neg hsid]
          exact ih acc hnd.2 hid2 h

theorem goodState_empty : GoodState ⟨[], []⟩ := by
  refine ⟨List.nodup_nil, List.nodup_nil, ?_, ?_⟩
  · intro k r h
    simp [alookup] at h
  · intro k r h
    simp [alookup] at h

theorem goodState_registerOp {st st' : RegState} {url uuid now we : String}
    {f : Except String AgentCard} {wOk : Bool} {r : RegisteredServer}
    (hg : GoodState st) (h : registerOp st url f uuid now wOk we = .ok (r, st')) :
    GoodState st' := by
  rcases registerOp_ok h with ⟨card, _, _, hcase⟩
  rcases hcase with ⟨hl, _, _, rfl⟩ | ⟨hd, _, _, hst⟩ | ⟨hr, _, hst⟩
  · exact hg
  · subst hst
    have hdisk : alookup st.disk (deriveRegistrationId card uuid) = some (some r) :=
      readServerFile_eq_some.mp hd
    refine ⟨nodupKeys_aset _ _ hg.cacheNodup, hg.diskNodup, hg.diskId, ?_⟩
    intro k2 r2 h2
    by_cases hk : k2 = deriveRegistrationId card uuid
    · subst hk
      rw [alookup_aset_self] at h2
      cases h2
      exact ⟨hg.diskId _ _ hdisk, hdisk⟩
    · rw [alookup_aset_ne _ _ _ _ hk] at h2
      exact hg.cacheId k2 r2 h2
  · subst hst
    have hid : r.id = deriveRegistrationId card uuid := by rw [hr]
    refine ⟨nodupKeys_aset _ _ hg.cacheNodup, nodupKeys_aset _ _ hg.diskNodup, ?_, ?_⟩
    · intro k2 r2 h2
      by_cases hk : k2 = deriveRegistrationId card uuid
      · subst hk
        rw [alookup_aset_self] at h2
        cases h2
        exact hid
      · rw [alookup_aset_ne _ _ _ _ hk] at h2
        exact hg.diskId k2 r2 h2
    · intro k2 r2 h2
      by_cases hk : k2 = deriveRegistrationId card uuid
      · subst hk
        rw [alookup_aset_self] at h2
        cases h2
        exact ⟨hid, alookup_aset_self _ _ _⟩
      · rw [alookup_aset_ne _ _ _ _ hk] at h2
        rcases hg.cacheId k2 r2 h2 with ⟨ha, hb⟩
        exact ⟨ha, by rw [alookup_aset_ne _ _ _ _ hk]; exact hb⟩

theorem goodState_getOp (st : RegState) (id : String) (hg : GoodState st) :
    GoodState (getOp st id).2 := by
  simp only [getOp]
  cases hl : alookup st.cache (slugify id (some MAX_SERVER_ID_SLUG_LENGTH)) with
  | some s => exact hg
  | none =>
    cases hd : readServerFile st.disk (slugify id (some MAX_SERVER_ID_SLUG_LENGTH)) with
    | none => exact hg
    | some s =>
      have hdisk := readServerFile_eq_some.mp hd
      refine ⟨nodupKeys_aset _ _ hg.cacheNodup, hg.diskNodup, hg.diskId, ?_⟩
      intro k2 r2 h2
      by_cases hk : k2 = slugify id (some MAX_SERVER_ID_SLUG_LENGTH)
      · subst hk
        rw [alookup_aset_self] at h2
        cases h2
        exact ⟨hg.diskId _ _ hdisk, hdisk⟩
      · rw [alookup_aset_ne _ _ _ _ hk] at h2
        exact hg.cacheId k2 r2 h2

theorem goodState_removeOp (st : RegState) (id : String) (uOk : Bool)
    (hg : GoodState st) : GoodState (removeOp st id uOk).2 := by
  simp only [removeOp]
  split
  · exact hg
  · split
    · exact hg
    · refine ⟨nodupKeys_aerase _ hg.cacheNodup, nodupKeys_aerase _ hg.diskNodup, ?_, ?_⟩
      · intro k2 r2 h2
        by_cases hk : k2 = slugify id (some MAX_SERVER_ID_SLUG_LENGTH)
        · rw [hk, alookup_aerase_self] at h2
          cases h2
        · rw [alookup_aerase_ne _ _ _ hk] at h2
          exact hg.diskId k2 r2 h2
      · intro k2 r2 h2
        by_cases hk : k2 = slugify id (some MAX_SERVER_ID_SLUG_LENGTH)
        · rw [hk, alookup_aerase_self] at h2
          cases h2
        · rw [alookup_aerase_ne _ _ _ hk] at h2
          rcases hg.cacheId k2 r2 h2 with ⟨ha, hb⟩
          exact ⟨ha, by rw [alookup_aerase_ne _ _ _ hk]; exact hb⟩

theorem goodState_reloadOp (st : RegState) (sOk : Bool) (hg : GoodState st) :
    GoodState (reloadOp st sOk).2 := by
  unfold reloadOp
  cases sOk with
  | false =>
    rw [if_neg (by simp)]
    refine ⟨List.nodup_nil, hg.diskNodup, hg.diskId, ?_⟩
    intro k r h
    simp [alookup] at h
  | true =>
    rw [if_pos rfl]
    refine ⟨nodupKeys_buildCache _ _ List.nodup_nil, hg.diskNodup, hg.diskId, ?_⟩
    intro k r h
    rcases mem_buildCache (alookup_mem h) with h1 | ⟨k2, h2, h3⟩
    · simp at h1
    · have hlk : alookup st.disk k2 = some (some r) :=
        alookup_of_mem_nodup hg.diskNodup h2
      have hidk : r.id = k2 := hg.diskId k2 r hlk
      have hk3 : k = r.id := h3
      refine ⟨hk3.symm, ?_⟩
      rw [hk3, hidk]
      exact hlk

/-- Every API-reachable state satisfies the cache/disk invariant. -/
theorem reachable_goodState {st : RegState} (h : Reachable st) : GoodState st := by
  induction h with
  | init => exact goodState_empty
  | regStep st url f uuid now wOk we r st' _ hreg ih =>
    exact goodState_registerOp ih hreg
  | getStep st id _ ih => exact goodState_getOp st id ih
  | removeStep st id uOk _ ih => exact goodState_removeOp st id uOk ih
  | reloadStep st sOk _ ih => exact goodState_reloadOp st sOk ih

theorem getOp_none_state {st : RegState} {id : String}
    (h : (getOp st id).1 = none) : getOp st id = (none, st) := by
  cases hl : alookup st.cache (slugify id (some MAX_SERVER_ID_SLUG_LENGTH)) with
  | some s =>
    simp only [getOp, hl] at h
    simp at h
  | none =>
    cases hd : readServerFile st.disk (slugify id (some MAX_SERVER_ID_SLUG_LENGTH)) with
    | none => simp only [getOp, hl, hd]
    | some s =>
      simp only [getOp, hl, hd] at h
      simp at h

theorem alookup_append {α : Type} (l1 l2 : List (String × α)) (k : String) :
    alookup (l1 ++ l2) k =
      match alookup l1 k with
      | some v => some v
      | none => alookup l2 k := by
  induction l1 with
  | nil => rfl
  | cons p rest ih =>
    obtain ⟨k1, v1⟩ := p
    rw [List.cons_append, alookup, alookup]
    by_cases hk : k1 = k
    · rw [if_pos hk, if_pos hk]
    · rw [if_neg hk, if_neg hk]
      exact ih

theorem removeOp_true {st st2 : RegState} {id : String} {uOk : Bool}
    (h : removeOp st id uOk = (true, st2)) :
    st2 = ⟨aerase st.cache (slugify id (some MAX_SERVER_ID_SLUG_LENGTH)),
           aerase st.disk (slugify id (some MAX_SERVER_ID_SLUG_LENGTH))⟩ := by
  simp only [removeOp] at h
  split at h
  · simp at h
  · split at h
    · simp at h
    · simp only [Prod.mk.injEq] at h
      exact h.2.symm

theorem substring0_ne_empty {uuid : String} (h : uuid ≠ "") {n : Nat} (hn : n ≠ 0) :
    substring0 uuid n ≠ "" := by
  unfold substring0
  intro hcon
  have hdata : uuid.data.take n = [] := congrArg String.data hcon
  rcases List.take_eq_nil_iff.mp hdata with h1 | h1
  · exact hn h1
  · apply h
    obtain ⟨data⟩ := uuid
    simp only [String.data] at h1
    rw [h1]

theorem deriveRegistrationId_ne_empty (card : AgentCard) {uuid : String} (h : uuid ≠ "") :
    deriveRegistrationId card uuid ≠ "" := by
  have hsub : substring0 uuid MAX_SERVER_ID_SLUG_LENGTH ≠ "" :=
    substring0_ne_empty h (by simp [MAX_SERVER_ID_SLUG_LENGTH])
  cases hid : card.id with
  | none =>
    simp only [deriveRegistrationId, hid]
    exact hsub
  | some cid =>
    simp only [deriveRegistrationId, hid]
    by_cases hne : jsTrim cid ≠ ""
    · rw [if_pos hne]
      by_cases hs : slugify (jsTrim cid) (some MAX_SERVER_ID_SLUG_LENGTH) ≠ ""
      · rw [if_pos hs]
        exact hs
      · rw [if_neg hs]
        exact hsub
    · rw [if_neg hne]
      exact hsub

/-- With a usable card id the derived identifier does not depend on the
generated UUID. -/
theorem deriveRegistrationId_usable {card : AgentCard} {cid : String} (uuid : String)
    (hcid : card.id = some cid) (hne : jsTrim cid ≠ "")
    (hslug : slugify (jsTrim cid) (some MAX_SERVER_ID_SLUG_LENGTH) ≠ "") :
    deriveRegistrationId card uuid = slugify (jsTrim cid) (some MAX_SERVER_ID_SLUG_LENGTH) := by
  simp only [deriveRegistrationId, hcid]
  rw [if_pos hne, if_pos hslug]

/-- After any successful `register`, the returned record sits in the cache
under the derived identifier and matches the requested URLs, and the card
passed validation. -/
theorem registerOp_ok_facts {st st1 : RegState} {url uuid now we : String}
    {wOk : Bool} {card : AgentCard} {r : RegisteredServer}
    (h : registerOp st url (.ok card) uuid now wOk we = .ok (r, st1)) :
    validateCard (cardEndpoint url) card = none
    ∧ alookup st1.cache (deriveRegistrationId card uuid) = some r
    ∧ r.registrationUrl = url ∧ r.card.url = card.url := by
  obtain ⟨card0, hf, hv, hcase⟩ := registerOp_ok h
  injection hf with hcc
  subst hcc
  refine ⟨hv, ?_⟩
  rcases hcase with ⟨hl, hu, hcu, rfl⟩ | ⟨hd, hu, hcu, hst⟩ | ⟨hr, hwk, hst⟩
  · exact ⟨hl, hu, hcu⟩
  · subst hst
    exact ⟨alookup_aset_self _ _ _, hu, hcu⟩
  · subst hst
    subst hr
    exact ⟨alookup_aset_self _ _ _, rfl, rfl⟩

theorem allText_extractReplyParts (deflt : List MsgPart)
    (hd : ∀ p ∈ deflt, p.type = "text") (result : Option TaskObj) :
    ∀ p ∈ extractReplyParts deflt result, p.type = "text" := by
  unfold extractReplyParts
  split
  · intro p hp
    rcases List.mem_map.mp hp with ⟨q, hq, rfl⟩
    rfl
  · exact hd

/-- Registering a batch of inputs whose derived identifiers are pairwise
distinct and fresh for the starting state appends exactly one cache entry
and one durable file per input. -/
theorem registerAll_fresh (ins : List (String × AgentCard × String × String))
    (st : RegState) (rs : List RegisteredServer) (stf : RegState)
    (h : registerAll st ins = some (rs, stf))
    (hnd : (ins.map regInputId).Nodup)
    (hfresh : ∀ i ∈ ins, alookup st.cache (regInputId i) = none
      ∧ alookup st.disk (regInputId i) = none) :
    rs = ins.map mkRegEntry
    ∧ stf.cache = st.cache ++ ins.map (fun i => (regInputId i, mkRegEntry i))
    ∧ stf.disk = st.disk ++ ins.map (fun i => (regInputId i, some (mkRegEntry i))) := by
  induction ins generalizing st rs with
  | nil =>
    simp only [registerAll, Option.some.injEq, Prod.mk.injEq] at h
    obtain ⟨h1, h2⟩ := h
    subst h1
    subst h2
    simp
  | cons i rest ih =>
    obtain ⟨url, card, uuid, now⟩ := i
    have hifresh : alookup st.cache (deriveRegistrationId card uuid) = none
        ∧ alookup st.disk (deriveRegistrationId card uuid) = none :=
      hfresh _ (List.mem_cons_self _ _)
    rw [List.map_cons, List.nodup_cons] at hnd
    obtain ⟨hnotin, hndtail⟩ := hnd
    simp only [registerAll] at h
    cases hr : registerOp st url (.ok card) uuid now true "" with
    | error e =>
      simp only [hr] at h
      simp at h
    | ok p =>
      obtain ⟨r, st2⟩ := p
      simp only [hr] at h
      cases hrec : registerAll st2 rest with
      | none =>
        simp only [hrec] at h
        simp at h
      | some q =>
        obtain ⟨rs2, stf2⟩ := q
        simp only [hrec, Option.some.injEq, Prod.mk.injEq] at h
        obtain ⟨hrs, hstf⟩ := h
        subst hstf
        obtain ⟨card0, hf, hv, hcase⟩ := registerOp_ok hr
        injection hf with hcc
        subst hcc
        rcases hcase with ⟨hl, -, -, -⟩ | ⟨hd, -, -, -⟩ | ⟨hre, -, hst2⟩
        · rw [hifresh.1] at hl
          simp at hl
        · rw [readServerFile_eq_some.mp hd] at hifresh
          simp at hifresh
        · subst hst2
          have hkr : ((deriveRegistrationId card uuid : String),
              (r : RegisteredServer)) = (regInputId (url, card, uuid, now),
              mkRegEntry (url, card, uuid, now)) := by
            rw [hre]
            rfl
          have hcache2 : (RegState.mk (aset st.cache (deriveRegistrationId card uuid) r)
                (aset st.disk (deriveRegistrationId card uuid) (some r))).cache
              = st.cache ++ [(deriveRegistrationId card uuid, r)] :=
            aset_eq_append _ _ _ hifresh.1
          have hdisk2 : (RegState.mk (aset st.cache (deriveRegistrationId card uuid) r)
                (aset st.disk (deriveRegistrationId card uuid) (some r))).disk
              = st.disk ++ [(deriveRegistrationId card uuid, some r)] :=
            aset_eq_append _ _ _ hifresh.2
          have hfresh2 : ∀ j ∈ rest,
              alookup (RegState.mk (aset st.cache (deriveRegistrationId card uuid) r)
                (aset st.disk (deriveRegistrationId card uuid) (some r))).cache
                  (regInputId j) = none
              ∧ alookup (RegState.mk (aset st.cache (deriveRegistrationId card uuid) r)
                  (aset st.disk (deriveRegistrationId card uuid) (some r))).disk
                  (regInputId j) = none := by
            intro j hj
            have hkj : deriveRegistrationId card uuid ≠ regInputId j := by
              intro he
              apply hnotin
              rw [show regInputId (url, card, uuid, now)
                  = deriveRegistrationId card uuid from rfl, he]
              exact List.mem_map.mpr ⟨j, hj, rfl⟩
            have hj2 := hfresh j (List.mem_cons_of_mem _ hj)
            constructor
            · rw [hcache2, alookup_append, hj2.1, alookup, if_neg hkj]
              rfl
            · rw [hdisk2, alookup_append, hj2.2, alookup, if_neg hkj]
              rfl
          obtain ⟨ihr, ihc, ihd⟩ := ih _ _ hrec hndtail hfresh2
          refine ⟨?_, ?_, ?_⟩
          · rw [← hrs, ihr, List.map_cons, hre]
            rfl
          · rw [ihc, hcache2, List.map_cons, List.append_assoc, List.singleton_append]
            have : ((deriveRegistrationId card uuid : String), r)
                = (regInputId (url, card, uuid, now), mkRegEntry (url, card, uuid, now)) := hkr
            rw [this]
          · rw [ihd, hdisk2, List.map_cons, List.append_assoc, List.singleton_append]
            have : ((deriveRegistrationId card uuid : String), some r)
                = (regInputId (url, card, uuid, now),
                   some (mkRegEntry (url, card, uuid, now))) := by
              rw [hre]
              rfl
            rw [this]

/-- `sampleState` is reached by registering `bellaCard` from the empty
state. -/
theorem sampleState_reachable : Reachable sampleState :=
  Reachable.regStep ⟨[], []⟩ "https://bella.example" (.ok bellaCard)
    "99999999-9999-9999-9999-999999999999" "2024-01-01T00:00:00.000Z" true ""
    bellaServer sampleState Reachable.init (by decide)

/-- C5 counterexample: the claim asserts the output length never exceeds the
given bound for every bound, but `slugify("ab", 0)` returns `"ab"` of length
2 because `0` is falsy in the truncation guard. -/
theorem C5_counterexample : ¬ ((slugify "ab" (some 0)).length ≤ 0) := by decide

/-- C5 (amended): `slugify` is pure and deterministic (and total, hence
never throws), yields the empty string on empty or unknown-character-only
input, and for every nonzero bound its output length never exceeds the
bound. -/
theorem C5_amended :
    (∀ t m, slugify t m = slugify t m)
    ∧ (∀ m, slugify "" m = "")
    ∧ (∀ t m, (∀ c ∈ t.data, isWordChar (Char.toLower c) = false) → slugify t m = "")
    ∧ (∀ t b, 1 ≤ b → (slugify t (some b)).length ≤ b) :=
  ⟨fun _ _ => rfl, fun _ => rfl, slugify_unknown_only, slugify_length_le⟩

/-- C5 witness: the amended claim evaluated at concrete inputs. -/
theorem C5_witness :
    slugify "?!* (+)" (some 20) = "" ∧ (slugify "my agent name" (some 5)).length ≤ 5 :=
  ⟨C5_amended.2.2.1 "?!* (+)" (some 20) (by decide),
   C5_amended.2.2.2 "my agent name" 5 (by decide)⟩

/-- C9: the registry lookup in `callSendTask` precedes the mock branch, so
an unknown server id produces the `Unknown A2A server id` failure through
`a2a_send_task` and through every synthesized skill tool even when mock mode
is enabled; the mock success response is only reachable after a successful
lookup. -/
theorem C9_lookupBeforeMock (st : RegState) (mock : Bool)
    (serverId taskId messageArg uuid now : String) (msg : Option AgentMessage)
    (net : NetOutcome) (h : (getOp st serverId).1 = none) :
    callSendTask st mock ⟨serverId, taskId, msg⟩ net now
        = (.error (.unknownServer serverId), st)
    ∧ (a2aSendTaskHandler st mock ⟨serverId, taskId, msg⟩ net now).1
        = ⟨[textPart ("Unknown A2A server id: " ++ serverId ++ ". Register it first.")],
           true⟩
    ∧ (skillToolHandler st mock serverId messageArg uuid net now).1
        = ⟨[textPart ("Unknown A2A server id: " ++ serverId ++ ". Register it first.")],
           true⟩ := by
  have hg := getOp_none_state h
  refine ⟨?_, ?_, ?_⟩
  · simp [callSendTask, hg]
  · simp [a2aSendTaskHandler, callSendTask, hg, sendTaskErrorText,
      A2AError.errCode, A2AError.errMessage, textPart]
  · simp [skillToolHandler, callSendTask, hg, skillErrorText,
      A2AError.errMessage, textPart]

/-- C9 witness: an unregistered id in mock mode still fails with the
unknown-id message. -/
theorem C9_witness :
    callSendTask ⟨[], []⟩ true ⟨"ghost", "t1", none⟩ (NetOutcome.httpError 500) "now"
      = (.error (.unknownServer "ghost"), ⟨[], []⟩) :=
  (C9_lookupBeforeMock ⟨[], []⟩ true "ghost" "t1" "m" "u" "now" none
    (NetOutcome.httpError 500) (by decide)).1

/-- C6: a well-formed JSON-RPC envelope carrying
`error = (code -32001, message Task Not Found)` surfaces through
`a2a_send_task` and through every synthesized skill tool as an
`isError = true` result whose sole text segment is exactly the remote
message, unmodified. -/
theorem C6_appErrorPropagation (st st2 : RegState) (e : RegisteredServer)
    (serverId taskId messageArg uuid now : String) (msg : Option AgentMessage)
    (result : Option TaskObj)
    (hget : getOp st serverId = (some e, st2)) :
    (a2aSendTaskHandler st false ⟨serverId, taskId, msg⟩
        (.ok ⟨result, some ⟨-32001, "Task Not Found"⟩⟩) now).1
      = ⟨[textPart "Task Not Found"], true⟩
    ∧ (skillToolHandler st false serverId messageArg uuid
        (.ok ⟨result, some ⟨-32001, "Task Not Found"⟩⟩) now).1
      = ⟨[textPart "Task Not Found"], true⟩ := by
  constructor
  · simp [a2aSendTaskHandler, callSendTask, hget, sendTaskErrorText,
      A2AError.errCode, A2AError.errMessage, textPart]
  · simp [skillToolHandler, callSendTask, hget, skillErrorText,
      A2AError.errMessage, textPart]

/-- C6 witness: the propagation at a concrete registered server. -/
theorem C6_witness :
    (a2aSendTaskHandler sampleState false ⟨"bella", "task-1", none⟩
        (.ok ⟨none, some ⟨-32001, "Task Not Found"⟩⟩) "now").1
      = ⟨[textPart "Task Not Found"], true⟩ :=
  (C6_appErrorPropagation sampleState sampleState bellaServer "bella" "task-1" "m" "u"
    "now" none none (by decide)).1

/-- C10: `reloadServers` keys the rebuilt cache by the id stored inside each
file, not by the file name: every rebuilt cache entry sits under its
record's internal id; a file `filea.json` whose record carries id `bee` is
cached under `bee` by reload while `get("filea")` returns and caches the
same record under the filename-derived key; and two parseable files sharing
an internal id collapse to a single cache entry, so the returned count (1)
is smaller than the number of parseable files (2). -/
theorem C10_reloadKeying :
    (∀ (disk : List (String × Option RegisteredServer)) (k : String)
        (r : RegisteredServer),
        alookup (buildCache disk []) k = some r → r.id = k)
    ∧ (reloadOp ⟨[], [("filea", some mismatchServer)]⟩ true).2.cache
        = [("bee", mismatchServer)]
    ∧ (getOp ⟨[], [("filea", some mismatchServer)]⟩ "filea").1 = some mismatchServer
    ∧ (getOp ⟨[], [("filea", some mismatchServer)]⟩ "filea").2.cache
        = [("filea", mismatchServer)]
    ∧ (reloadOp ⟨[], [("filea", some mismatchServer), ("fileb", some mismatchServer2)]⟩
        true).1 = 1 := by
  refine ⟨?_, by decide, by decide, by decide, by decide⟩
  intro disk k r h
  rcases mem_buildCache (alookup_mem h) with h1 | ⟨k2, h2, h3⟩
  · simp at h1
  · have h4 : k = r.id := h3
    exact h4.symm

/-- C10 witness: the universal keying fact evaluated at the mismatched
file. -/
theorem C10_witness : mismatchServer.id = "bee" :=
  C10_reloadKeying.1 [("filea", some mismatchServer)] "bee" mismatchServer (by decide)

/-- C8 counterexample: the claim asserts that two invocations of a
synthesized endpoint with identical arguments produce identical reply text
in mock mode, but each invocation generates a fresh `randomUUID()` task id
and the mock reply text embeds it, so the texts differ across invocations
with the same `message` argument. -/
theorem C8_counterexample :
    (skillToolHandler sampleState true "bella" "hi" "11111111-aaaa"
        (NetOutcome.httpError 500) "t").1.content
    ≠ (skillToolHandler sampleState true "bella" "hi" "22222222-bbbb"
        (NetOutcome.httpError 500) "t").1.content := by decide

/-- C8 (amended): invoking a synthesized endpoint for a registered agent in
mock mode yields `isError = false` with the placeholder reply
`Mock agent acknowledges task: <taskId>` — deterministic in the generated
task id (though that id is fresh per invocation) — and the outcome is
independent of the network, i.e. no network call is made. -/
theorem C8_amended (st st2 : RegState) (e : RegisteredServer)
    (srvId messageArg uuid now : String) (net net2 : NetOutcome)
    (hget : getOp st srvId = (some e, st2)) :
    (skillToolHandler st true srvId messageArg uuid net now).1
      = ⟨[textPart ("Mock agent acknowledges task: " ++ uuid)], false⟩
    ∧ skillToolHandler st true srvId messageArg uuid net now
      = skillToolHandler st true srvId messageArg uuid net2 now := by
  constructor
  · simp [skillToolHandler, callSendTask, hget, mockTask, extractReplyParts, textPart]
  · simp [skillToolHandler, callSendTask, hget]

/-- C8 witness: the amended claim evaluated at the sample registry. -/
theorem C8_witness :
    (skillToolHandler sampleState true "bella" "hi" "task-uuid-1"
        (NetOutcome.httpError 500) "t").1
      = ⟨[textPart "Mock agent acknowledges task: task-uuid-1"], false⟩ :=
  (C8_amended sampleState sampleState bellaServer "bella" "hi" "task-uuid-1" "t"
    (NetOutcome.httpError 500) (NetOutcome.httpError 404) (by decide)).1

/-- C2 counterexample: the claim asserts idempotency for every
`registrationUrl` with an unchanged manifest, but when the card supplies no
usable id the derived identifier is a fresh UUID per call, so registering
the same URL twice with the identical manifest succeeds twice, produces two
different ids, and leaves two durable files. -/
theorem C2_counterexample :
    ((registerAll ⟨[], []⟩
        [("https://anon.example", noIdCard, "11111111-1111-1111-1111-111111111111", "t1"),
         ("https://anon.example", noIdCard, "22222222-2222-2222-2222-222222222222", "t2")]).map
      (fun p => (p.1.map RegisteredServer.id, p.2.disk.length)))
      = some (["11111111-1111-1111-1", "22222222-2222-2222-2"], 2) := by decide

/-- C2 (amended): when the fetched card carries a usable id — a non-blank
`card.id` whose bounded slug is nonempty — a second `register` with the same
`registrationUrl` and identical fetched card (any fresh UUID, timestamp or
write outcome) returns the very record of the first call and leaves the
state untouched, via the cache-first idempotency check; so the id is stable
and no second durable file is created. -/
theorem C2_amended (st st1 : RegState) (url uuid1 now1 we1 uuid2 now2 we2 : String)
    (wOk1 wOk2 : Bool) (card : AgentCard) (cid : String) (r1 : RegisteredServer)
    (hcid : card.id = some cid) (hne : jsTrim cid ≠ "")
    (hslug : slugify (jsTrim cid) (some MAX_SERVER_ID_SLUG_LENGTH) ≠ "")
    (h1 : registerOp st url (.ok card) uuid1 now1 wOk1 we1 = .ok (r1, st1)) :
    registerOp st1 url (.ok card) uuid2 now2 wOk2 we2 = .ok (r1, st1) := by
  obtain ⟨hv, hlook, hu, hcu⟩ := registerOp_ok_facts h1
  have hk1 := deriveRegistrationId_usable uuid1 hcid hne hslug
  have hk2 := deriveRegistrationId_usable uuid2 hcid hne hslug
  have hlook2 : alookup st1.cache (deriveRegistrationId card uuid2) = some r1 := by
    rw [hk2, ← hk1]
    exact hlook
  simp only [registerOp, hv, hlook2]
  rw [if_pos ⟨hu, hcu⟩]

/-- C2 witness: re-registering Bella with the unchanged card returns the
original record and state. -/
theorem C2_witness :
    registerOp sampleState "https://bella.example" (.ok bellaCard)
      "55555555-5555-5555-5555-555555555555" "2024-02-02T00:00:00.000Z" true ""
      = .ok (bellaServer, sampleState) :=
  C2_amended ⟨[], []⟩ sampleState "https://bella.example"
    "99999999-9999-9999-9999-999999999999" "2024-01-01T00:00:00.000Z" ""
    "55555555-5555-5555-5555-555555555555" "2024-02-02T00:00:00.000Z" ""
    true true bellaCard "Bella" bellaServer (by decide) (by decide) (by decide)
    (by decide)

/-- C3: round-trip through durable storage.  For any API-reachable state, a
record returned by a successful `register` (with the nonempty UUID a real
`randomUUID()` always is) is recovered field-for-field equal by
`reloadServers`, cached under its id. -/
theorem C3_roundTrip (st st1 : RegState) (url uuid now we : String) (wOk : Bool)
    (card : AgentCard) (r : RegisteredServer)
    (hre : Reachable st) (huuid : uuid ≠ "")
    (h : registerOp st url (.ok card) uuid now wOk we = .ok (r, st1)) :
    alookup (reloadOp st1 true).2.cache r.id = some r := by
  have hre1 : Reachable st1 :=
    Reachable.regStep st url (.ok card) uuid now wOk we r st1 hre h
  have hg1 := reachable_goodState hre1
  obtain ⟨hv, hlook, hu, hcu⟩ := registerOp_ok_facts h
  obtain ⟨hid, hdisk⟩ := hg1.cacheId _ _ hlook
  have hne : r.id ≠ "" := by
    rw [hid]
    exact deriveRegistrationId_ne_empty card huuid
  have hbc : alookup (buildCache st1.disk []) r.id = some r := by
    apply buildCache_lookup_of_mem st1.disk [] r.id r hg1.diskNodup hg1.diskId ?_ hne
    rw [hid]
    exact hdisk
  have hcacheeq : (reloadOp st1 true).2.cache = buildCache st1.disk [] := rfl
  rw [hcacheeq]
  exact hbc

/-- C3 witness: Bella's record survives the reload round-trip. -/
theorem C3_witness :
    alookup (reloadOp sampleState true).2.cache "bella" = some bellaServer :=
  C3_roundTrip ⟨[], []⟩ sampleState "https://bella.example"
    "99999999-9999-9999-9999-999999999999" "2024-01-01T00:00:00.000Z" "" true
    bellaCard bellaServer Reachable.init (by decide) (by decide)

/-- C4: removal completeness on API-reachable states.  A `remove` returning
true leaves `get` absent (cache and disk both miss), leaves no record with
that id in `list`, and makes a second `remove` of the same id return false;
and `remove` returns false when the slugged id is absent from both cache and
durable storage. -/
theorem C4_removal (st : RegState) (id : String) (uOk uOk2 : Bool)
    (hre : Reachable st) :
    (∀ st2, removeOp st id uOk = (true, st2) →
       getOp st2 id = (none, st2)
       ∧ (∀ r ∈ listOp st2, r.id ≠ slugify id (some MAX_SERVER_ID_SLUG_LENGTH))
       ∧ removeOp st2 id uOk2 = (false, st2))
    ∧ (alookup st.cache (slugify id (some MAX_SERVER_ID_SLUG_LENGTH)) = none →
       alookup st.disk (slugify id (some MAX_SERVER_ID_SLUG_LENGTH)) = none →
       removeOp st id uOk = (false, st)) := by
  have hg := reachable_goodState hre
  constructor
  · intro st2 h
    have hst2 := removeOp_true h
    subst hst2
    have hc : alookup (aerase st.cache (slugify id (some MAX_SERVER_ID_SLUG_LENGTH)))
        (slugify id (some MAX_SERVER_ID_SLUG_LENGTH)) = none := alookup_aerase_self _ _
    have hd : alookup (aerase st.disk (slugify id (some MAX_SERVER_ID_SLUG_LENGTH)))
        (slugify id (some MAX_SERVER_ID_SLUG_LENGTH)) = none := alookup_aerase_self _ _
    refine ⟨?_, ?_, ?_⟩
    · simp only [getOp, hc, readServerFile, hd]
    · intro r hr
      simp only [listOp] at hr
      rcases List.mem_map.mp hr with ⟨p, hp, rfl⟩
      obtain ⟨hpin, hpne⟩ := mem_aerase hp
      have hpid := (hg.cacheId p.1 p.2 (alookup_of_mem_nodup hg.cacheNodup hpin)).1
      rw [hpid]
      exact hpne
    · simp [removeOp, hc, hd]
  · intro h1 h2
    simp [removeOp, h1, h2]

/-- C4 witness: removing Bella, then probing the emptied registry. -/
theorem C4_witness :
    getOp ⟨[], []⟩ "bella" = (none, ⟨[], []⟩)
    ∧ removeOp ⟨[], []⟩ "bella" true = (false, ⟨[], []⟩) :=
  let h := (C4_removal sampleState "bella" true true sampleState_reachable).1
    ⟨[], []⟩ (by decide)
  ⟨h.1, h.2.2⟩

/-- C1 counterexample: two distinct manifests whose supplied ids slug to the
same identifier both register successfully, but the second silently
overwrites the first: after N = 2 successful registrations of distinct
manifests the registry holds a single record, not two. -/
theorem C1_counterexample :
    bellaCard ≠ bellaCard2
    ∧ ((registerAll ⟨[], []⟩
        [("https://bella.example", bellaCard,
          "11111111-1111-1111-1111-111111111111", "t1"),
         ("https://bella2.example", bellaCard2,
          "22222222-2222-2222-2222-222222222222", "t2")]).map
        (fun p => (p.1.length, p.2.cache.length, p.2.disk.length)))
      = some (2, 1, 1) := by decide

/-- C1 (amended): after N successful registrations, from the empty registry,
of manifests whose derived identifiers are pairwise distinct, cache and
durable storage each hold exactly N records and the created records are
exactly the derived ones; and in every API-reachable state no two records
share an id (each record is keyed by its own id, and keys are unique). -/
theorem C1_amended :
    (∀ ins rs stf, registerAll ⟨[], []⟩ ins = some (rs, stf) →
       (ins.map regInputId).Nodup →
       stf.cache.length = ins.length ∧ stf.disk.length = ins.length
       ∧ (stf.cache.map (fun p => p.2.id)).Nodup
       ∧ rs = ins.map mkRegEntry)
    ∧ (∀ st, Reachable st →
       (st.cache.map (fun p => p.2.id)).Nodup
       ∧ ∀ p ∈ st.cache, p.2.id = p.1) := by
  constructor
  · intro ins rs stf h hnd
    obtain ⟨hrs, hc, hd⟩ := registerAll_fresh ins ⟨[], []⟩ rs stf h hnd
      (fun i _ => ⟨rfl, rfl⟩)
    rw [List.nil_append] at hc hd
    refine ⟨?_, ?_, ?_, hrs⟩
    · rw [hc, List.length_map]
    · rw [hd, List.length_map]
    · rw [hc, List.map_map]
      exact hnd
  · intro st hre
    have hg := reachable_goodState hre
    refine ⟨?_, ?_⟩
    · have hmapeq : st.cache.map (fun p => p.2.id) = st.cache.map Prod.fst := by
        apply List.map_congr_left
        intro p hp
        exact (hg.cacheId p.1 p.2 (alookup_of_mem_nodup hg.cacheNodup hp)).1
      rw [hmapeq]
      exact hg.cacheNodup
    · intro p hp
      exact (hg.cacheId p.1 p.2 (alookup_of_mem_nodup hg.cacheNodup hp)).1

/-- C1 witness: two registrations with distinct derived ids from the empty
registry leave exactly two cached records. -/
theorem C1_witness :
    (RegState.mk
      [("bella", bellaServer), ("33333333-3333-3333-3", anonServer)]
      [("bella", some bellaServer),
       ("33333333-3333-3333-3", some anonServer)]).cache.length = 2 :=
  (C1_amended.1
    [("https://bella.example", bellaCard, "99999999-9999-9999-9999-999999999999",
      "2024-01-01T00:00:00.000Z"),
     ("https://anon.example", noIdCard, "33333333-3333-3333-3333-333333333333", "t2")]
    [bellaServer, anonServer]
    ⟨[("bella", bellaServer), ("33333333-3333-3333-3", anonServer)],
     [("bella", some bellaServer), ("33333333-3333-3333-3", some anonServer)]⟩
    (by decide) (by decide)).1

/-- C7 counterexample: the claim asserts every storage failure is converted
to an `isError = true` result, but a storage scan failure during
`reloadServers` is recovered inside the registry as count 0, so the reload
tool reports success (`isError = false`) with `Found 0 servers.`. -/
theorem C7_counterexample :
    (a2aReloadServersHandler sampleState false).1
      = ⟨[textPart "Successfully reloaded A2A server configurations. Found 0 servers."],
         false⟩ := by decide

/-- C7 (amended): every administrative operation and every synthesized
endpoint returns the uniform envelope (text segments plus an `isError` flag)
for every input and never propagates an exception; validation, transport,
application and storage-write failures surface as `isError = true` with a
descriptive message, with the single exception that a storage scan failure
during `reloadServers` surfaces as an `isError = false` envelope reporting
zero servers. -/
theorem C7_amended :
    (∀ st url f uuid now wOk we,
       ((a2aRegisterServerHandler st url f uuid now wOk we).1.isError = true
         ↔ ∃ m, registerOp st url f uuid now wOk we = .error m)
       ∧ allText (a2aRegisterServerHandler st url f uuid now wOk we).1)
    ∧ (∀ st sOk, (a2aReloadServersHandler st sOk).1.isError = false
       ∧ allText (a2aReloadServersHandler st sOk).1)
    ∧ (∀ st, (a2aListServersHandler st).1.isError = false
       ∧ allText (a2aListServersHandler st).1)
    ∧ (∀ st sid,
       ((a2aGetServerDetailsHandler st sid).1.isError = true ↔ (getOp st sid).1 = none)
       ∧ allText (a2aGetServerDetailsHandler st sid).1)
    ∧ (∀ st sid uOk,
       ((a2aRemoveServerHandler st sid uOk).1.isError = true
         ↔ (removeOp st sid uOk).1 = false)
       ∧ allText (a2aRemoveServerHandler st sid uOk).1)
    ∧ (∀ st mock args net now,
       ((a2aSendTaskHandler st mock args net now).1.isError = true
         ↔ ∃ e, (callSendTask st mock args net now).1 = .error e)
       ∧ (∀ e st3, callSendTask st mock args net now = (.error e, st3) →
           (a2aSendTaskHandler st mock args net now).1.content
             = [textPart (sendTaskErrorText e)])
       ∧ allText (a2aSendTaskHandler st mock args net now).1)
    ∧ (∀ st mock sid msg uuid net now,
       ((skillToolHandler st mock sid msg uuid net now).1.isError = true
         ↔ ∃ e, (callSendTask st mock
             ⟨sid, uuid, some ⟨"user", some [⟨"text", msg⟩]⟩⟩ net now).1 = .error e)
       ∧ allText (skillToolHandler st mock sid msg uuid net now).1) := by
  refine ⟨?_, ?_, ?_, ?_, ?_, ?_, ?_⟩
  · intro st url f uuid now wOk we
    cases hr : registerOp st url f uuid now wOk we with
    | ok p =>
      obtain ⟨entry, st2⟩ := p
      refine ⟨by simp [a2aRegisterServerHandler, hr], ?_⟩
      intro q hq
      simp [a2aRegisterServerHandler, hr, textPart] at hq
      simp [hq]
    | error m =>
      refine ⟨by simp [a2aRegisterServerHandler, hr], ?_⟩
      intro q hq
      simp [a2aRegisterServerHandler, hr, textPart] at hq
      simp [hq]
  · intro st sOk
    refine ⟨rfl, ?_⟩
    intro q hq
    simp [a2aReloadServersHandler, textPart] at hq
    simp [hq]
  · intro st
    refine ⟨rfl, ?_⟩
    intro q hq
    simp [a2aListServersHandler, textPart] at hq
    simp [hq]
  · intro st sid
    rcases hget : getOp st sid with ⟨res, st2⟩
    cases res with
    | none =>
      refine ⟨by simp [a2aGetServerDetailsHandler, hget], ?_⟩
      intro q hq
      simp [a2aGetServerDetailsHandler, hget, textPart] at hq
      simp [hq]
    | some s =>
      refine ⟨by simp [a2aGetServerDetailsHandler, hget], ?_⟩
      intro q hq
      simp [a2aGetServerDetailsHandler, hget, textPart] at hq
      simp [hq]
  · intro st sid uOk
    rcases hrm : removeOp st sid uOk with ⟨ok, st2⟩
    cases ok with
    | true =>
      refine ⟨by simp [a2aRemoveServerHandler, hrm], ?_⟩
      intro q hq
      simp [a2aRemoveServerHandler, hrm, textPart] at hq
      simp [hq]
    | false =>
      refine ⟨by simp [a2aRemoveServerHandler, hrm], ?_⟩
      intro q hq
      simp [a2aRemoveServerHandler, hrm, textPart] at hq
      simp [hq]
  · intro st mock args net now
    rcases hcall : callSendTask st mock args net now with ⟨res, st2⟩
    cases res with
    | ok v =>
      refine ⟨by simp [a2aSendTaskHandler, hcall], ?_, ?_⟩
      · intro e st3 he
        simp at he
      · intro q hq
        simp only [a2aSendTaskHandler, hcall] at hq
        refine allText_extractReplyParts _ ?_ v q hq
        intro w hw
        simp [textPart] at hw
        simp [hw]
    | error e =>
      refine ⟨by simp [a2aSendTaskHandler, hcall], ?_, ?_⟩
      · intro e2 st3 he
        simp only [Prod.mk.injEq, Except.error.injEq] at he
        obtain ⟨he1, he2⟩ := he
        subst he1
        simp [a2aSendTaskHandler, hcall]
      · intro q hq
        simp [a2aSendTaskHandler, hcall, textPart] at hq
        simp [hq]
  · intro st mock sid msg uuid net now
    rcases hcall : callSendTask st mock
        ⟨sid, uuid, some ⟨"user", some [⟨"text", msg⟩]⟩⟩ net now with ⟨res, st2⟩
    cases res with
    | ok v =>
      refine ⟨by simp [skillToolHandler, hcall], ?_⟩
      intro q hq
      simp only [skillToolHandler, hcall] at hq
      refine allText_extractReplyParts _ ?_ v q hq
      intro w hw
      simp [textPart] at hw
      simp [hw]
    | error e =>
      refine ⟨by simp [skillToolHandler, hcall], ?_⟩
      intro q hq
      simp [skillToolHandler, hcall, textPart] at hq
      simp [hq]

/-- C7 witness: a validation-class failure (unknown id) surfacing through
`a2a_get_server_details` as an error envelope. -/
theorem C7_witness :
    (a2aGetServerDetailsHandler ⟨[], []⟩ "ghost").1.isError = true :=
  ((C7_amended.2.2.2.1 ⟨[], []⟩ "ghost").1).mpr (by decide)
